import Mathlib

/-!
Verification of the rule-based network interception and response-simulation
engine (`NetworkMockingUtils`, src/unnamed/part_002).

The engine is embedded shallowly: the Playwright `page.route`/`page.unroute`
layer becomes an explicit list of installed hooks; the per-request route
callback from `addMockRule` becomes `handlerStep`; maps become association
lists with JS `Map.set`/`Map.delete` semantics; the JS clock (`Date.now()`,
`new Date().toISOString()`) becomes an explicit `Nat` parameter; JSON bodies
become a `Json` inductive with a deterministic `stringify` mirroring
`JSON.stringify` on the values this repository builds (no string escaping is
needed: none of the repository's body strings contain quotes or backslashes).
-/

set_option maxHeartbeats 1000000
set_option maxRecDepth 8000

namespace NetworkMocking

/-- A JSON-like value, modelling the untyped (`any`) response bodies of the
source. Numbers are modelled as integers; every numeric literal appearing in
the bodies this development builds is integral. -/
inductive Json where
  | null : Json
  | bool (b : Bool) : Json
  | num (n : Int) : Json
  | str (s : String) : Json
  | arr (elems : List Json) : Json
  | obj (fields : List (String × Json)) : Json

mutual

/-- Model of `JSON.stringify` on `Json` values: object fields are emitted in
insertion order, exactly as V8 does for string-keyed objects. -/
def Json.stringify : Json → String
  | .null => "null"
  | .bool true => "true"
  | .bool false => "false"
  | .num n => toString n
  | .str s => "\"" ++ s ++ "\""
  | .arr elems => "[" ++ Json.stringifyArr elems ++ "]"
  | .obj fields => "\x7b" ++ Json.stringifyObj fields ++ "\x7d"

/-- Comma-separated serialization of a JSON array's elements. -/
def Json.stringifyArr : List Json → String
  | [] => ""
  | [j] => Json.stringify j
  | j :: rest => Json.stringify j ++ "," ++ Json.stringifyArr rest

/-- Comma-separated serialization of a JSON object's fields. -/
def Json.stringifyObj : List (String × Json) → String
  | [] => ""
  | [(k, v)] => "\"" ++ k ++ "\":" ++ Json.stringify v
  | (k, v) :: rest => "\"" ++ k ++ "\":" ++ Json.stringify v ++ "," ++ Json.stringifyObj rest

end

/-- Field access on a JSON object (`j["k"]`). -/
def Json.getField (j : Json) (k : String) : Option Json :=
  match j with
  | .obj fields => fields.lookup k
  | _ => none

/-- The string payload of a JSON string value. -/
def Json.asString (j : Json) : Option String :=
  match j with
  | .str s => some s
  | _ => none

/-- Abstract injective model of `Date#toISOString` applied to the clock value
`t` (milliseconds since epoch). Only injectivity in `t` matters here. -/
def toISOString (t : Nat) : String :=
  "iso_" ++ toString t

/-- An intercepted request, as the engine reads it through the Playwright
`Request` accessors: `method()`, `url()`, `headers()` (header names arrive
lowercased). The engine never mutates a request. -/
structure Request where
  method : String
  url : String
  headers : List (String × String)

/-- A URL matcher as passed to `page.route`: a glob string or a regular
expression. The repository's regexes are all literal (no metacharacters
beyond escaped slashes), so a regex is kept as its literal text. -/
inductive UrlPattern where
  | str (s : String) : UrlPattern
  | regex (source : String) : UrlPattern
deriving BEq, DecidableEq

/-- Substring containment on character lists: does `needle` occur contiguously
inside the second list? -/
def containsSub (needle : List Char) : List Char → Bool
  | [] => needle.isEmpty
  | c :: rest => needle.isPrefixOf (c :: rest) || containsSub needle rest

/-- The external router's test of a pattern against a request URL: a glob
string without wildcards matches the URL exactly; a literal regex matches by
substring containment (`RegExp#test`). -/
def patMatches (p : UrlPattern) (url : String) : Bool :=
  match p with
  | .str s => s == url
  | .regex s => containsSub s.toList url.toList

/-- A response body: a JS string (`typeof body === 'string'`) or a structured
(non-string) value. -/
inductive MockBody where
  | str (s : String) : MockBody
  | jval (j : Json) : MockBody

/-- `MockResponse` from the source: `status?`, `headers?`, `body`, `delay?`. -/
structure MockResponse where
  status : Option Nat := none
  headers : Option (List (String × String)) := none
  body : MockBody
  delay : Option Nat := none

/-- `MockRule` from the source: `url`, `method?`, `response`, `times?`,
`condition?`. -/
structure MockRule where
  url : UrlPattern
  method : Option String := none
  response : MockResponse
  times : Option Nat := none
  condition : Option (Request → Bool) := none

/-- The options object the callback passes to `route.fulfill`:
`status: rule.response.status || 200`, `headers: rule.response.headers || {}`,
`body: typeof body === 'string' ? body : JSON.stringify(body)`. -/
structure SynthesizedResponse where
  status : Nat
  headers : List (String × String)
  body : String
deriving DecidableEq

/-- Building the `route.fulfill` options from a `MockResponse`. `status || 200`
is JS falsiness: an absent status and a `0` status both default to `200`. -/
def synthesizeResponse (resp : MockResponse) : SynthesizedResponse :=
  { status :=
      match resp.status with
      | none => 200
      | some s => if s = 0 then 200 else s
    headers := resp.headers.getD []
    body :=
      match resp.body with
      | .str s => s
      | .jval j => Json.stringify j }

/-- What the route callback does with an intercepted request: `route.continue()`
(pass through to the real destination) or `route.fulfill(...)`. -/
inductive Outcome where
  | passedThrough : Outcome
  | fulfilled (resp : SynthesizedResponse) : Outcome
deriving DecidableEq

/-- The budget check `rule.times && currentCount >= rule.times`: JS falsiness
makes an absent `times` and a `0` budget both skip the check. -/
def timesExceeded (times : Option Nat) (currentCount : Nat) : Bool :=
  match times with
  | none => false
  | some n => if n = 0 then false else decide (n ≤ currentCount)

/-- Model of JS `String#toUpperCase` on the ASCII method names used here. -/
def toUpperCase (s : String) : String :=
  String.mk (s.data.map Char.toUpper)

/-- The method check `rule.method && request.method() !== rule.method.toUpperCase()`:
an absent (or empty, again by JS falsiness) method filter passes everything. -/
def methodMismatch (method : Option String) (req : Request) : Bool :=
  match method with
  | none => false
  | some m => if m = "" then false else req.method != toUpperCase m

/-- The predicate check `rule.condition && !rule.condition(request)`: an absent
condition passes everything. -/
def condPasses (condition : Option (Request → Bool)) (req : Request) : Bool :=
  match condition with
  | none => true
  | some f => f req

/-- A request matches a rule (given that the router already matched the URL
pattern) when neither the method filter nor the predicate rejects it. -/
def ruleMatches (r : MockRule) (req : Request) : Bool :=
  !(methodMismatch r.method req) && condPasses r.condition req

/-- The body of the route callback installed by `addMockRule`, for one
intercepted request: budget check, method check, predicate check (each
passing through on failure), then increment-and-fulfill. Returns the new
value of `requestCounts[id]` together with the outcome. The artificial
`delay` only suspends the callback and is invisible in the outcome. -/
def handlerStep (r : MockRule) (currentCount : Nat) (req : Request) : Nat × Outcome :=
  if timesExceeded r.times currentCount then (currentCount, .passedThrough)
  else if methodMismatch r.method req then (currentCount, .passedThrough)
  else if !(condPasses r.condition req) then (currentCount, .passedThrough)
  else (currentCount + 1, .fulfilled (synthesizeResponse r.response))

/-- Folding the route callback over a sequence of requests all routed to the
same rule's hook, starting from a given `requestCounts[id]` value. Returns
the final count and the per-request outcomes. -/
def runSeq (r : MockRule) : Nat → List Request → Nat × List Outcome
  | c, [] => (c, [])
  | c, q :: rest =>
    ((runSeq r (handlerStep r c q).1 rest).1,
      (handlerStep r c q).2 :: (runSeq r (handlerStep r c q).1 rest).2)

/-- The number of requests in a list that match a rule. -/
def countMatches (r : MockRule) : List Request → Nat
  | [] => 0
  | q :: rest => (if ruleMatches r q then 1 else 0) + countMatches r rest

/-- Modelled from the spec's words, as the refinement target for the call
budget claim: the first `N` matching requests (counting from `prior` matches
already seen) are fulfilled, every other request passes through. -/
def budgetedOutcomes (r : MockRule) (n : Nat) : Nat → List Request → List Outcome
  | _, [] => []
  | prior, q :: rest =>
    (if ruleMatches r q && decide (prior < n) then
        Outcome.fulfilled (synthesizeResponse r.response)
      else Outcome.passedThrough)
      :: budgetedOutcomes r n (if ruleMatches r q then prior + 1 else prior) rest

/-- `Map.set` on an insertion-ordered association list: replace in place if
the key exists, else append. -/
def mapSet {α : Type} (m : List (String × α)) (k : String) (v : α) : List (String × α) :=
  match m with
  | [] => [(k, v)]
  | (k', v') :: rest => if k' == k then (k, v) :: rest else (k', v') :: mapSet rest k v

/-- `Map.delete` on an association list. -/
def mapErase {α : Type} (m : List (String × α)) (k : String) : List (String × α) :=
  m.filter (fun p => !(p.1 == k))

/-- One installed interception hook: the pattern given to `page.route`
together with the `id` and `rule` captured by the callback closure. -/
structure Hook where
  pattern : UrlPattern
  id : String
  rule : MockRule

/-- The state of one `NetworkMockingUtils` instance plus its page's installed
routes. `routes` is newest-first: Playwright tries the most recently
registered route first, and `route.continue()` does not fall through to
other routes. -/
structure MockState where
  mockRules : List (String × MockRule)
  requestCounts : List (String × Nat)
  routes : List Hook

/-- The empty engine state (fresh page, no rules). -/
def emptyState : MockState := ⟨[], [], []⟩

/-- `addMockRule(id, rule)`: store the rule, reset `requestCounts[id]` to 0,
and install a new hook via `page.route(rule.url, callback)`. A previously
installed hook for the same id is NOT removed. -/
def addMockRule (st : MockState) (id : String) (rule : MockRule) : MockState :=
  { mockRules := mapSet st.mockRules id rule
    requestCounts := mapSet st.requestCounts id 0
    routes := ⟨rule.url, id, rule⟩ :: st.routes }

/-- `removeMockRule(id)`: if the id is registered, `page.unroute(rule.url)`
(removing every hook installed under that exact pattern) and delete the rule
and its count; otherwise a no-op. -/
def removeMockRule (st : MockState) (id : String) : MockState :=
  match st.mockRules.lookup id with
  | some rule =>
    { mockRules := mapErase st.mockRules id
      requestCounts := mapErase st.requestCounts id
      routes := st.routes.filter (fun h => !(h.pattern == rule.url)) }
  | none => st

/-- `clearAllMockRules()`: `removeMockRule(id)` for every registered id, in
insertion order. -/
def clearAllMockRules (st : MockState) : MockState :=
  (st.mockRules.map Prod.fst).foldl removeMockRule st

/-- `getRequestCount(id)`: `requestCounts.get(id) || 0`. -/
def getRequestCount (st : MockState) (id : String) : Nat :=
  (st.requestCounts.lookup id).getD 0

/-- The browser emits a request: the router picks the most recently installed
hook whose pattern matches the URL (none → the request goes to the real
network, i.e. passes through); the hook's callback then runs `handlerStep`
with the count stored under the captured id, writing
`requestCounts.set(id, currentCount + 1)` exactly on the fulfill path. -/
def dispatchRequest (st : MockState) (req : Request) : MockState × Outcome :=
  match st.routes.find? (fun h => patMatches h.pattern req.url) with
  | none => (st, .passedThrough)
  | some h =>
    match handlerStep h.rule (getRequestCount st h.id) req with
    | (c', Outcome.fulfilled resp) =>
      ({ st with requestCounts := mapSet st.requestCounts h.id c' }, .fulfilled resp)
    | (_, Outcome.passedThrough) => (st, .passedThrough)

/-- The structured content of the error thrown by `waitForRequests` on
timeout: the message interpolates the rule id, the expected count, and a
fresh `getRequestCount(id)` read at throw time. -/
structure TimeoutError where
  ruleId : String
  expected : Nat
  observed : Nat
deriving DecidableEq

/-- The polling loop of `waitForRequests`, with time discretized at its only
suspension point (the 100 ms sleep): iteration `j` runs at `elapsed = 100*j`;
`counts e` is the value `getRequestCount(id)` returns at elapsed time `e`.
The loop runs while `elapsed < timeout`, returns as soon as a poll observes
`expected ≤ count`, and otherwise throws with a fresh count read at exit.
`fuel` only bounds the iteration count: each iteration advances `elapsed` by
100, so the caller's choice `fuel := timeout` makes the fuel-exhaustion case
coincide with the `elapsed ≥ timeout` exit (proved in `waitLoop_correct`). -/
def waitLoop (counts : Nat → Nat) (id : String) (expected timeout : Nat) :
    Nat → Nat → Except TimeoutError Unit
  | 0, elapsed => .error ⟨id, expected, counts elapsed⟩
  | fuel + 1, elapsed =>
    if elapsed < timeout then
      if expected ≤ counts elapsed then .ok ()
      else waitLoop counts id expected timeout fuel (elapsed + 100)
    else .error ⟨id, expected, counts elapsed⟩

/-- `waitForRequests(id, expectedCount, timeout)`: poll `getRequestCount(id)`
every 100 ms until it reaches `expectedCount` or `timeout` ms have elapsed. -/
def waitForRequests (counts : Nat → Nat) (id : String) (expected timeout : Nat) :
    Except TimeoutError Unit :=
  waitLoop counts id expected timeout timeout 0

/-- The response body built by `mockEligibilityAPI` at registration time
`now` (the preset runs `new Date().toISOString()` and `Date.now()` while
constructing the rule object). -/
def eligibilityBody (memberId : String) (isEligible : Bool) (now : Nat) : Json :=
  Json.obj [
    ("success", Json.bool true),
    ("data", Json.obj [
      ("memberId", Json.str memberId),
      ("isEligible", Json.bool isEligible),
      ("effectiveDate", Json.str "2024-01-01"),
      ("terminationDate", Json.str (if isEligible then "2024-12-31" else "2024-01-01")),
      ("benefits",
        if isEligible then
          Json.arr [Json.obj [
            ("serviceType", Json.str "Medical"),
            ("coverage", Json.str "80%"),
            ("deductible", Json.num 1000),
            ("copay", Json.num 25),
            ("coinsurance", Json.num 20),
            ("outOfPocketMax", Json.num 5000),
            ("remainingDeductible", Json.num 500),
            ("remainingOutOfPocket", Json.num 2500)]]
        else Json.arr []),
      ("limitations", Json.arr []),
      ("exclusions", Json.arr [])]),
    ("timestamp", Json.str (toISOString now)),
    ("requestId", Json.str ("req_" ++ toString now))]

/-- `mockEligibilityAPI(memberId, isEligible)` evaluated at clock `now`:
the `(id, rule)` pair it hands to `addMockRule`. The id is the fixed string
`'eligibility'`. -/
def mockEligibilityAPI (memberId : String) (isEligible : Bool) (now : Nat) :
    String × MockRule :=
  ("eligibility",
    { url := .regex "/api/eligibility/verify"
      method := some "POST"
      response :=
        { status := some 200
          body := .jval (eligibilityBody memberId isEligible now) } })

/-- The response body built by `mockFileUpload` at registration time `now`. -/
def fileUploadBody (success : Bool) (now : Nat) : Json :=
  if success then
    Json.obj [
      ("success", Json.bool true),
      ("data", Json.obj [
        ("fileId", Json.str ("file_" ++ toString now)),
        ("fileName", Json.str "test-document.pdf"),
        ("fileSize", Json.num 1024),
        ("uploadDate", Json.str (toISOString now))])]
  else
    Json.obj [
      ("success", Json.bool false),
      ("error", Json.obj [
        ("code", Json.str "UPLOAD_FAILED"),
        ("message", Json.str "File upload failed")])]

/-- `mockFileUpload(uploadPath, success)` evaluated at clock `now`: the
`(id, rule)` pair it hands to `addMockRule`. The id is the fixed string
`'file-upload'`. -/
def mockFileUpload (uploadPath : String) (success : Bool) (now : Nat) :
    String × MockRule :=
  ("file-upload",
    { url := .regex uploadPath
      method := some "POST"
      response :=
        { status := some (if success then 200 else 400)
          body := .jval (fileUploadBody success now) } })

/-- The header-keyed predicate of `mockSOAPAPI`:
`request.headers()['soapaction'] === soapAction` (an absent header is
`undefined` and compares unequal to any string). -/
def soapCondition (soapAction : String) : Request → Bool :=
  fun req =>
    match req.headers.lookup "soapaction" with
    | some v => v == soapAction
    | none => false

/-- `mockSOAPAPI(endpoint, soapAction, response)`: the `(id, rule)` pair it
hands to `addMockRule`. The id is derived from the action name. -/
def mockSOAPAPI (endpoint soapAction response : String) : String × MockRule :=
  ("soap-" ++ soapAction,
    { url := .regex endpoint
      method := some "POST"
      condition := some (soapCondition soapAction)
      response :=
        { status := some 200
          headers := some [("Content-Type", "text/xml; charset=utf-8")]
          body := .str response } })

/-- A mock rule whose predicate may throw, as any JS function may. This is
the same `MockRule` shape with the predicate's possible exception made
explicit in `Except` (the error value models the thrown JS exception). -/
structure MockRuleE where
  url : UrlPattern
  method : Option String := none
  response : MockResponse
  times : Option Nat := none
  condition : Option (Request → Except String Bool) := none

/-- The route callback body of `addMockRule` in the exception monad: the
source callback contains no try/catch, so the only way an evaluation error
can be handled is by monadic propagation — there is no handler that converts
it to `route.continue()`. -/
def handlerStepE (r : MockRuleE) (currentCount : Nat) (req : Request) :
    Except String (Nat × Outcome) := do
  if timesExceeded r.times currentCount then
    return (currentCount, Outcome.passedThrough)
  if methodMismatch r.method req then
    return (currentCount, Outcome.passedThrough)
  match r.condition with
  | some f =>
    let b ← f req
    if !b then
      return (currentCount, Outcome.passedThrough)
    return (currentCount + 1, Outcome.fulfilled (synthesizeResponse r.response))
  | none =>
    return (currentCount + 1, Outcome.fulfilled (synthesizeResponse r.response))

/-- Projection extracting `body.data.memberId` from a structured body. -/
def bodyMemberId (b : MockBody) : Option String :=
  match b with
  | .jval j => (j.getField "data").bind fun d => (d.getField "memberId").bind Json.asString
  | .str _ => none

/-- Projection extracting the top-level `body.requestId` from a structured
body. -/
def bodyRequestId (b : MockBody) : Option String :=
  match b with
  | .jval j => (j.getField "requestId").bind Json.asString
  | .str _ => none

/-- A budgeted rule (`times: 1`) used to instantiate the call-budget theorem. -/
def rBudget : MockRule :=
  { url := .str "https://app/u", times := some 1, response := { body := .str "ok" } }

/-- A zero-budget rule (`times: 0`) used to instantiate the zero-budget
theorem. -/
def rZero : MockRule :=
  { url := .str "https://app/u", times := some 0, response := { body := .str "ok" } }

/-- A request to the URL of `rBudget`/`rZero`. -/
def qB : Request := { method := "GET", url := "https://app/u", headers := [] }

/-- A rule whose predicate throws on every request. -/
def boomRule : MockRuleE :=
  { url := .str "https://app/u"
    response := { body := .str "ok" }
    condition := some (fun _ => .error "boom") }

/-- A response spec with a structured body, no status and no headers. -/
def plainObjSpec : MockResponse :=
  { body := .jval (Json.obj [("a", Json.num 1)]) }

/-- A `POST /api/eligibility/verify` request, matching the eligibility
preset's pattern. -/
def reqElig : Request :=
  { method := "POST", url := "https://a/api/eligibility/verify", headers := [] }

/-- State after registering the eligibility preset (member `M`, clock 10) on a
fresh page. -/
def s1m : MockState :=
  addMockRule emptyState (mockEligibilityAPI "M" true 10).1 (mockEligibilityAPI "M" true 10).2

/-- State after registering the eligibility preset (member `M1`, clock 10) on
a fresh page. -/
def s1elig : MockState :=
  addMockRule emptyState (mockEligibilityAPI "M1" true 10).1 (mockEligibilityAPI "M1" true 10).2

/-- `s1elig` after one matching request has been fulfilled (its count is 1). -/
def sBump : MockState := (dispatchRequest s1elig reqElig).1

/-- `sBump` after a second invocation of the eligibility preset (member `M2`,
clock 20) registers over the same fixed id. -/
def s2elig : MockState :=
  addMockRule sBump (mockEligibilityAPI "M2" false 20).1 (mockEligibilityAPI "M2" false 20).2

/-- The SOAP preset rule for action `GetEligibility` on `/soap/endpoint`. -/
def soapRule : MockRule :=
  (mockSOAPAPI "/soap/endpoint" "GetEligibility" "<soap:Envelope/>").2

/-- A request carrying the matching `soapaction` header. -/
def reqSoapGood : Request :=
  { method := "POST", url := "https://a/soap/endpoint"
    headers := [("soapaction", "GetEligibility")] }

/-- A request carrying a different `soapaction` header. -/
def reqSoapBad : Request :=
  { method := "POST", url := "https://a/soap/endpoint"
    headers := [("soapaction", "GetClaims")] }

/-- First rule registered under id `x` (pattern `https://app/a`). -/
def ruleA : MockRule :=
  { url := .str "https://app/a", response := { body := .str "A" } }

/-- Second rule registered under the same id `x` but a different pattern
(`https://app/b`), replacing `ruleA` in the registry. -/
def ruleB : MockRule :=
  { url := .str "https://app/b", response := { body := .str "B" } }

/-- A request to `ruleA`'s URL. -/
def reqA : Request := { method := "GET", url := "https://app/a", headers := [] }

/-- State after `addMockRule('x', ruleA); addMockRule('x', ruleB)` on a fresh
page: the registry holds only `ruleB`, but both hooks remain installed. -/
def stAB : MockState := addMockRule (addMockRule emptyState "x" ruleA) "x" ruleB

theorem mapSet_lookup_self {α : Type} (m : List (String × α)) (k : String) (v : α) :
    (mapSet m k v).lookup k = some v := by
  induction m with
  | nil => simp [mapSet, List.lookup]
  | cons p rest ih =>
    obtain ⟨k', v'⟩ := p
    by_cases h : k' = k
    · subst h
      simp [mapSet, List.lookup]
    · have h1 : (k' == k) = false := by simp [h]
      have h2 : (k == k') = false := by simp [Ne.symm h]
      simp [mapSet, List.lookup, h1, h2, ih]

theorem addMockRule_lookup (st : MockState) (id : String) (r : MockRule) :
    (addMockRule st id r).mockRules.lookup id = some r ∧
    getRequestCount (addMockRule st id r) id = 0 := by
  constructor
  · exact mapSet_lookup_self _ _ _
  · unfold getRequestCount addMockRule
    rw [mapSet_lookup_self]
    rfl

/-- Claim C10: a rule registered with `times = 0` behaves exactly as a rule
with no budget at all (JS falsiness skips the budget check), so every
matching request is fulfilled and counted without limit, for any current
count. -/
theorem C10_zero_budget (r : MockRule) (c : Nat) (req : Request) (h0 : r.times = some 0) :
    handlerStep r c req = handlerStep { r with times := none } c req ∧
    (methodMismatch r.method req = false → condPasses r.condition req = true →
      handlerStep r c req = (c + 1, Outcome.fulfilled (synthesizeResponse r.response))) := by
  constructor
  · simp [handlerStep, timesExceeded, h0]
  · intro hm hc
    simp [handlerStep, timesExceeded, h0, hm, hc]

theorem C10_zero_budget_witness :
    handlerStep rZero 5 qB = handlerStep { rZero with times := none } 5 qB ∧
    handlerStep rZero 5 qB = (6, Outcome.fulfilled (synthesizeResponse rZero.response)) :=
  ⟨(C10_zero_budget rZero 5 qB rfl).1, (C10_zero_budget rZero 5 qB rfl).2 rfl rfl⟩

/-- Claim C7: for a rule with a predicate, a request routed to the rule's
hook and surviving the budget and method checks is fulfilled if and only if
the predicate returns true; and whenever the predicate returns false the
request passes through with the counter untouched, no matter the budget or
method state. -/
theorem C7_predicate_routing (r : MockRule) (f : Request → Bool) (c : Nat) (req : Request)
    (hc : r.condition = some f) :
    (timesExceeded r.times c = false → methodMismatch r.method req = false →
      ((handlerStep r c req).2 = Outcome.fulfilled (synthesizeResponse r.response) ↔
        f req = true)) ∧
    (f req = false → handlerStep r c req = (c, Outcome.passedThrough)) := by
  constructor
  · intro hb hm
    simp only [handlerStep, hb, hm, condPasses, hc, Bool.false_eq_true, if_false]
    cases hf : f req <;> simp
  · intro hf
    simp [handlerStep, condPasses, hc, hf]

theorem C7_predicate_routing_witness :
    (handlerStep soapRule 0 reqSoapGood).2 =
      Outcome.fulfilled (synthesizeResponse soapRule.response) ∧
    handlerStep soapRule 0 reqSoapBad = (0, Outcome.passedThrough) :=
  ⟨((C7_predicate_routing soapRule (soapCondition "GetEligibility") 0 reqSoapGood rfl).1
      (by decide) (by decide)).mpr (by decide),
    (C7_predicate_routing soapRule (soapCondition "GetEligibility") 0 reqSoapBad rfl).2
      (by decide)⟩

/-- Claim C3 counterexample: an exception raised by the predicate inside the
interception callback is NOT caught and NOT resolved as pass-through — it
propagates out of the callback (the callback body has no try/catch). -/
theorem C3_counterexample :
    handlerStepE boomRule 0 qB = .error "boom" ∧
    handlerStepE boomRule 0 qB ≠ .ok (0, Outcome.passedThrough) := by
  refine ⟨rfl, fun h => ?_⟩
  rw [show handlerStepE boomRule 0 qB = Except.error "boom" from rfl] at h
  exact Except.noConfusion h

/-- Claim C3 as amended: an exception raised while evaluating the predicate
of a rule (past the budget and method checks) propagates out of the
interception callback unchanged; the dispatcher performs no catch, no
logging, and no conversion to pass-through. -/
theorem C3_amended_uncaught (r : MockRuleE) (f : Request → Except String Bool) (c : Nat)
    (req : Request) (e : String) (hc : r.condition = some f)
    (hb : timesExceeded r.times c = false) (hm : methodMismatch r.method req = false)
    (hf : f req = .error e) :
    handlerStepE r c req = .error e := by
  simp only [handlerStepE, hb, hm, hc, hf, Bool.false_eq_true, if_false]
  rfl

theorem C3_amended_witness : handlerStepE boomRule 0 qB = .error "boom" :=
  C3_amended_uncaught boomRule (fun _ => .error "boom") 0 qB "boom" rfl rfl rfl rfl

/-- Claim C5 counterexample: for a response spec with a structured body and
no caller-supplied headers, the synthesizer does NOT infer a content-type
header — the fulfill options carry an empty header map. -/
theorem C5_counterexample :
    (synthesizeResponse plainObjSpec).headers = [] ∧
    (synthesizeResponse plainObjSpec).headers.lookup "content-type" = none ∧
    (synthesizeResponse plainObjSpec).headers.lookup "Content-Type" = none :=
  ⟨rfl, rfl, rfl⟩

/-- Claim C5 as amended: the synthesizer serializes a structured body to its
JSON text and leaves a string body unchanged; the status defaults to 200
when omitted (and also when 0, by JS falsiness); caller-supplied headers are
passed through unchanged, and absent headers become the empty map — no
content-type header is ever inferred. -/
theorem C5_amended_synthesis (resp : MockResponse) :
    (∀ s, resp.body = MockBody.str s → (synthesizeResponse resp).body = s) ∧
    (∀ j, resp.body = MockBody.jval j → (synthesizeResponse resp).body = Json.stringify j) ∧
    (resp.status = none → (synthesizeResponse resp).status = 200) ∧
    (resp.status = some 0 → (synthesizeResponse resp).status = 200) ∧
    (∀ h, resp.headers = some h → (synthesizeResponse resp).headers = h) ∧
    (resp.headers = none → (synthesizeResponse resp).headers = []) := by
  refine ⟨fun s hs => ?_, fun j hj => ?_, fun h0 => ?_, fun h0 => ?_,
    fun h hh => ?_, fun h0 => ?_⟩ <;>
    simp [synthesizeResponse, *]

theorem C5_amended_witness :
    (synthesizeResponse plainObjSpec).body = Json.stringify (Json.obj [("a", Json.num 1)]) ∧
    (synthesizeResponse plainObjSpec).status = 200 ∧
    (synthesizeResponse plainObjSpec).headers = [] :=
  ⟨(C5_amended_synthesis plainObjSpec).2.1 (Json.obj [("a", Json.num 1)]) rfl,
    (C5_amended_synthesis plainObjSpec).2.2.1 rfl,
    (C5_amended_synthesis plainObjSpec).2.2.2.2.2 rfl⟩

/-- Claim C4 counterexample: two successive fulfillments of the eligibility
rule produce identical outcomes — the bodies are byte-identical, including
the supposedly time-varying fields — and the `requestId` field is fixed by
the clock at registration time (`req_10` for a rule registered at 10,
`req_20` at 20), not at fulfillment time. -/
theorem C4_counterexample :
    (dispatchRequest s1m reqElig).2 =
      (dispatchRequest (dispatchRequest s1m reqElig).1 reqElig).2 ∧
    bodyRequestId (mockEligibilityAPI "M" true 10).2.response.body = some "req_10" ∧
    bodyRequestId (mockEligibilityAPI "M" true 20).2.response.body = some "req_20" :=
  ⟨by decide, by decide, by decide⟩

/-- Claim C4 as amended: time-varying fields are computed once, at
rule-registration time (the preset embeds the registration clock into the
stored body), and every fulfillment returns exactly the synthesized response
of the stored spec — so repeated fulfillments of one rule are byte-identical,
including the `requestId`/`timestamp` fields. -/
theorem C4_amended_registration_time (r : MockRule) (c : Nat) (req : Request)
    (m : String) (e : Bool) (t : Nat) :
    ((handlerStep r c req).2 = Outcome.passedThrough ∨
      (handlerStep r c req).2 = Outcome.fulfilled (synthesizeResponse r.response)) ∧
    bodyRequestId (mockEligibilityAPI m e t).2.response.body =
      some ("req_" ++ toString t) := by
  constructor
  · unfold handlerStep
    split
    · left; rfl
    · split
      · left; rfl
      · split
        · left; rfl
        · right; rfl
  · rfl

/-- Claim C6 counterexample: two invocations of `mockEligibilityAPI` with
different arguments produce the SAME fixed id `'eligibility'`; registering
the second after the first (whose count had reached 1) replaces the stored
rule with the second one — whose body differs — and resets the call count
to 0. -/
theorem C6_counterexample :
    (mockEligibilityAPI "M1" true 10).1 = (mockEligibilityAPI "M2" false 20).1 ∧
    getRequestCount sBump "eligibility" = 1 ∧
    getRequestCount s2elig "eligibility" = 0 ∧
    s2elig.mockRules.lookup "eligibility" = some (mockEligibilityAPI "M2" false 20).2 ∧
    bodyMemberId (mockEligibilityAPI "M2" false 20).2.response.body ≠
      bodyMemberId (mockEligibilityAPI "M1" true 10).2.response.body := by
  refine ⟨rfl, by decide, by decide, by rfl, ?_⟩
  decide

/-- Claim C6 as amended: each preset is a pure factory (its output depends
only on its arguments and the clock), but the domain presets cited use fixed
rule ids (`'eligibility'`, `'file-upload'`), so two invocations register
under the same id: the second replaces the first rule (last-registration
wins) and resets its call count to 0. -/
theorem C6_amended_fixed_id_replacement (m1 m2 p : String) (e1 e2 s : Bool)
    (t1 t2 t3 : Nat) (st : MockState) :
    (mockEligibilityAPI m1 e1 t1).1 = (mockEligibilityAPI m2 e2 t2).1 ∧
    (mockFileUpload p s t3).1 = "file-upload" ∧
    (addMockRule
        (addMockRule st (mockEligibilityAPI m1 e1 t1).1 (mockEligibilityAPI m1 e1 t1).2)
        (mockEligibilityAPI m2 e2 t2).1 (mockEligibilityAPI m2 e2 t2).2).mockRules.lookup
      "eligibility" = some (mockEligibilityAPI m2 e2 t2).2 ∧
    getRequestCount
      (addMockRule
        (addMockRule st (mockEligibilityAPI m1 e1 t1).1 (mockEligibilityAPI m1 e1 t1).2)
        (mockEligibilityAPI m2 e2 t2).1 (mockEligibilityAPI m2 e2 t2).2)
      "eligibility" = 0 :=
  ⟨rfl, rfl, (addMockRule_lookup _ _ _).1, (addMockRule_lookup _ _ _).2⟩

/-- Claim C8 (exhibiting the code bug): after registering id `x` with
pattern `https://app/a` and then re-registering `x` with pattern
`https://app/b`, `clearAllMockRules()` empties the registry and the counts —
but the hook installed for the first registration's pattern survives
(`unroute` is only called on the current rule's pattern), so a request to
the previously mocked URL is still fulfilled with `ruleA`'s response
instead of passing through. -/
theorem C8_stale_hook_after_clear :
    (clearAllMockRules stAB).mockRules = [] ∧
    (clearAllMockRules stAB).requestCounts = [] ∧
    getRequestCount (clearAllMockRules stAB) "x" = 0 ∧
    (clearAllMockRules stAB).routes.length = 1 ∧
    (dispatchRequest (clearAllMockRules stAB) reqA).2 =
      Outcome.fulfilled (synthesizeResponse ruleA.response) :=
  ⟨rfl, rfl, by decide, by decide, by decide⟩

/-- Claim C9 (exhibiting the code bug): after `removeMockRule('x')` both maps
are empty, but dispatching a request through the stale hook left over from
the first registration of `x` re-creates a count entry for the unregistered
id — the rule map and the count map no longer have the same key set. -/
theorem C9_count_without_rule :
    (removeMockRule stAB "x").mockRules = [] ∧
    (removeMockRule stAB "x").requestCounts = [] ∧
    (dispatchRequest (removeMockRule stAB "x") reqA).1.requestCounts = [("x", 1)] ∧
    (dispatchRequest (removeMockRule stAB "x") reqA).1.mockRules = [] :=
  ⟨rfl, rfl, by decide, by rfl⟩

theorem runSeq_budgeted (r : MockRule) (n : Nat) (ht : r.times = some n) (hn : 0 < n)
    (reqs : List Request) :
    ∀ prior : Nat,
      runSeq r (min n prior) reqs =
        (min n (prior + countMatches r reqs), budgetedOutcomes r n prior reqs) := by
  induction reqs with
  | nil =>
    intro prior
    simp [runSeq, countMatches, budgetedOutcomes]
  | cons q rest ih =>
    intro prior
    have hnz : n ≠ 0 := by omega
    by_cases hp : n ≤ prior
    · have hc : min n prior = n := by omega
      have hex : timesExceeded r.times n = true := by
        simp [timesExceeded, ht, hnz]
      have hstep : handlerStep r n q = (n, Outcome.passedThrough) := by
        simp [handlerStep, hex]
      have hdp : decide (prior < n) = false := by simp; omega
      rw [hc]
      cases hq : ruleMatches r q
      · have ih' := ih prior
        rw [hc] at ih'
        simp only [runSeq, hstep, ih', budgetedOutcomes, countMatches, hq, Bool.false_and,
          if_neg (by simp : ¬((false : Bool) = true))]
        simp
      · have ih' := ih (prior + 1)
        rw [show min n (prior + 1) = n from by omega] at ih'
        simp only [runSeq, hstep, ih', budgetedOutcomes, countMatches, hq, hdp,
          Bool.and_false]
        refine Prod.ext ?_ ?_
        · simp only [if_true]
          omega
        · simp
    · have hc : min n prior = prior := by omega
      have hex : timesExceeded r.times prior = false := by
        simp [timesExceeded, ht, hnz]
        omega
      have hdp : decide (prior < n) = true := by simp; omega
      rw [hc]
      cases hmm : methodMismatch r.method q
      · cases hcp : condPasses r.condition q
        · have hstep : handlerStep r prior q = (prior, Outcome.passedThrough) := by
            simp [handlerStep, hex, hmm, hcp]
          have hq : ruleMatches r q = false := by
            simp [ruleMatches, hmm, hcp]
          have ih' := ih prior
          rw [hc] at ih'
          simp only [runSeq, hstep, ih', budgetedOutcomes, countMatches, hq, Bool.false_and]
          simp
        · have hstep : handlerStep r prior q =
              (prior + 1, Outcome.fulfilled (synthesizeResponse r.response)) := by
            simp [handlerStep, hex, hmm, hcp]
          have hq : ruleMatches r q = true := by
            simp [ruleMatches, hmm, hcp]
          have ih' := ih (prior + 1)
          rw [show min n (prior + 1) = prior + 1 from by omega] at ih'
          simp only [runSeq, hstep, ih', budgetedOutcomes, countMatches, hq, hdp,
            Bool.and_self]
          refine Prod.ext ?_ ?_
          · simp only [if_true]
            omega
          · simp
      · have hstep : handlerStep r prior q = (prior, Outcome.passedThrough) := by
          simp [handlerStep, hex, hmm]
        have hq : ruleMatches r q = false := by
          simp [ruleMatches, hmm]
        have ih' := ih prior
        rw [hc] at ih'
        simp only [runSeq, hstep, ih', budgetedOutcomes, countMatches, hq, Bool.false_and]
        simp

/-- Claim C1: for a rule with call budget `times = N > 0`, running any
request sequence through the rule's hook from a fresh registration (count 0)
fulfills exactly the first `N` matching requests — each matching request is
fulfilled and counted while fewer than `N` matches precede it, every later
matching request passes through — and the final count is
`min N (number of matching requests)`, so the counter is never incremented
past `N`. -/
theorem C1_call_budget (r : MockRule) (n : Nat) (reqs : List Request)
    (ht : r.times = some n) (hn : 0 < n) :
    runSeq r 0 reqs = (min n (countMatches r reqs), budgetedOutcomes r n 0 reqs) := by
  have h := runSeq_budgeted r n ht hn reqs 0
  simpa using h

theorem C1_call_budget_witness :
    runSeq rBudget 0 [qB, qB] =
      (min 1 (countMatches rBudget [qB, qB]), budgetedOutcomes rBudget 1 0 [qB, qB]) ∧
    runSeq rBudget 0 [qB, qB] =
      (1, [Outcome.fulfilled (synthesizeResponse rBudget.response), Outcome.passedThrough]) :=
  ⟨C1_call_budget rBudget 1 [qB, qB] rfl (by decide), by decide⟩

theorem waitLoop_correct (counts : Nat → Nat) (id : String) (k t : Nat) :
    ∀ fuel elapsed : Nat, t ≤ elapsed + 100 * fuel →
      ((waitLoop counts id k t fuel elapsed = .ok () ↔
          ∃ j, elapsed + 100 * j < t ∧ k ≤ counts (elapsed + 100 * j)) ∧
        ∀ e, waitLoop counts id k t fuel elapsed = .error e →
          e.ruleId = id ∧ e.expected = k ∧
          ∃ j, e.observed = counts (elapsed + 100 * j) ∧ t ≤ elapsed + 100 * j ∧
            (j = 0 ∨ elapsed + 100 * (j - 1) < t)) := by
  intro fuel
  induction fuel with
  | zero =>
    intro elapsed hle
    constructor
    · constructor
      · intro h
        exact absurd h (by simp [waitLoop])
      · rintro ⟨j, hj, _⟩
        exact absurd hj (by omega)
    · intro e he
      simp only [waitLoop] at he
      injection he with h
      subst h
      exact ⟨rfl, rfl, 0, by simp, by omega, Or.inl rfl⟩
  | succ fuel ih =>
    intro elapsed hle
    by_cases hlt : elapsed < t
    · by_cases hk : k ≤ counts elapsed
      · constructor
        · simp only [waitLoop, if_pos hlt, if_pos hk]
          constructor
          · intro _
            exact ⟨0, by simpa using hlt, by simpa using hk⟩
          · intro _
            trivial
        · intro e he
          simp only [waitLoop, if_pos hlt, if_pos hk] at he
          exact Except.noConfusion he
      · have hrec := ih (elapsed + 100) (by omega)
        constructor
        · simp only [waitLoop, if_pos hlt, if_neg hk]
          rw [hrec.1]
          constructor
          · rintro ⟨j, hj1, hj2⟩
            refine ⟨j + 1, by omega, ?_⟩
            rwa [show elapsed + 100 + 100 * j = elapsed + 100 * (j + 1) from by ring] at hj2
          · rintro ⟨j, hj1, hj2⟩
            cases j with
            | zero =>
              exact absurd (by simpa using hj2) hk
            | succ j =>
              refine ⟨j, by omega, ?_⟩
              rwa [show elapsed + 100 * (j + 1) = elapsed + 100 + 100 * j from by ring] at hj2
        · intro e he
          simp only [waitLoop, if_pos hlt, if_neg hk] at he
          obtain ⟨h1, h2, j, ho, hj1, hj2⟩ := hrec.2 e he
          refine ⟨h1, h2, j + 1, ?_, by omega, Or.inr ?_⟩
          · rwa [show elapsed + 100 * (j + 1) = elapsed + 100 + 100 * j from by ring]
          · simp only [Nat.add_sub_cancel]
            omega
    · constructor
      · simp only [waitLoop, if_neg hlt]
        constructor
        · intro h
          exact Except.noConfusion h
        · rintro ⟨j, hj, _⟩
          exact absurd hj (by omega)
      · intro e he
        simp only [waitLoop, if_neg hlt] at he
        injection he with h
        subst h
        exact ⟨rfl, rfl, 0, by simp, by omega, Or.inl rfl⟩

/-- Claim C2: `waitForRequests(id, k, t)` returns successfully if and only if
some poll (the loop observes the count at its 100 ms suspension points,
elapsed times `100*j < t`) sees the fulfillment count reach at least `k`
before the deadline; otherwise it throws a timeout error whose `ruleId` and
`expected` fields are the call's arguments and whose `observed` field is a
fresh count read taken at the moment the loop exits (the first poll instant
at or past `t`). -/
theorem C2_wait_timeout (counts : Nat → Nat) (id : String) (k t : Nat) :
    (waitForRequests counts id k t = .ok () ↔
      ∃ j, 100 * j < t ∧ k ≤ counts (100 * j)) ∧
    ∀ e, waitForRequests counts id k t = .error e →
      e.ruleId = id ∧ e.expected = k ∧ e.observed = counts (100 * ((t + 99) / 100)) := by
  have h := waitLoop_correct counts id k t t 0 (by omega)
  constructor
  · rw [show waitForRequests counts id k t = waitLoop counts id k t t 0 from rfl, h.1]
    constructor
    · rintro ⟨j, h1, h2⟩
      exact ⟨j, by omega, by simpa using h2⟩
    · rintro ⟨j, h1, h2⟩
      exact ⟨j, by omega, by simpa using h2⟩
  · intro e he
    obtain ⟨h1, h2, j, ho, hj1, hj2⟩ := h.2 e he
    have hj : j = (t + 99) / 100 := by omega
    subst hj
    exact ⟨h1, h2, by simpa using ho⟩

theorem C2_wait_timeout_witness :
    waitForRequests (fun _ => 1) "auth" 2 1000 = .error ⟨"auth", 2, 1⟩ ∧
    (⟨"auth", 2, 1⟩ : TimeoutError).observed = 1 := by
  constructor
  · rfl
  · exact ((C2_wait_timeout (fun _ => 1) "auth" 2 1000).2 ⟨"auth", 2, 1⟩ (by rfl)).2.2

end NetworkMocking
